import Mathlib

/-!
Verification of the client/daemon bootstrap and session-handoff core of
`lf-autocd` (Go sources: `main.go`, with the autocd exit integration quoted
in `AUTOCD_INTEGRATION_PLAN.md`).

The Go code is shallowly embedded: pure helpers become Lean functions,
effectful branches (`checkServer`, the `main` dispatch, the exit handoff)
become functions from the observable inputs (flag values, stat/dial
outcomes) to explicit action lists / outcome values.  Go machine integers
are modelled as `Int` with explicit wrapping where overflow matters.
-/

namespace LfAutocd

/-- A reflected Go value as seen by `fieldToString` in `main.go`:
the `reflect.Kind` switch distinguishes `Int`, `Bool`, `Slice` and a
default case that calls `field.String()`. -/
inductive GoVal where
  | VInt : Int → GoVal
  | VBool : Bool → GoVal
  | VStr : String → GoVal
  | VSlice : List GoVal → GoVal

/-- Go `strconv.FormatBool`. -/
def formatBool (b : Bool) : String := if b then "true" else "false"

mutual

/-- Embedding of `fieldToString` (`main.go` lines 94-118): ints via
`strconv.Itoa`, bools via `strconv.FormatBool`, slices joined with `":"`
(first element bare, each later element appended as `":" + element`),
anything else via `field.String()`. -/
def fieldToString : GoVal → String
  | .VInt n => toString n
  | .VBool b => formatBool b
  | .VStr s => s
  | .VSlice l => sliceToString l

/-- The slice loop of `fieldToString`: `value` starts as the string of the
first element; every further iteration does `value += ":" + element`. -/
def sliceToString : List GoVal → String
  | [] => ""
  | x :: xs => sliceLoop xs (fieldToString x)

/-- The tail of the slice loop, carrying the accumulated `value`. -/
def sliceLoop : List GoVal → String → String
  | [], acc => acc
  | x :: xs, acc => sliceLoop xs (acc ++ ":" ++ fieldToString x)

end

/-- Splitting a character list on `':'` (the read-back direction of the
list encoding; matches Go `strings.Split(s, ":")` on the code points). -/
def splitColon : List Char → List (List Char)
  | [] => [[]]
  | c :: cs =>
    match splitColon cs with
    | [] => [[]]
    | g :: gs => if c = ':' then [] :: g :: gs else (c :: g) :: gs

/-- `splitColon` lifted to `String`. -/
def splitColonS (s : String) : List String :=
  (splitColon s.data).map String.mk

/-- Joining character lists with `':'` (specification-side inverse of
`splitColon`). -/
def joinColon : List (List Char) → List Char
  | [] => []
  | [x] => x
  | x :: y :: ys => x ++ ':' :: joinColon (y :: ys)

/-- Modelled from the spec: the option struct `gOpts` (its defining file,
`opts.go`, is not under `src/`; `main.go` only reflects over it).  Per the
spec's data model, a SessionConfig holds scalar, boolean and list-of-scalar
options, four map-valued fields (normal-, visual- and command-line-mode key
bindings and named commands) and a nested map of user-defined settings; the
scalar/boolean/list fields here are the ones named by the spec's scenario
(`tabstop`, `hidden`, `ratios`).  Maps are association lists with distinct
keys, as in Go. -/
structure GOpts where
  tabstop : Int
  hidden : Bool
  ratios : List Int
  nkeys : List (String × String)
  vkeys : List (String × String)
  cmdkeys : List (String × String)
  cmds : List (String × String)
  user : List (String × String)

/-- Embedding of `getOptsMap` (`main.go` lines 120-145): walk the struct
fields in declaration order; each field is keyed `"lf_" + name`; the four
map fields `nkeys`, `vkeys`, `cmdkeys`, `cmds` are skipped by name; the
`user` map expands to one entry `lf_user_<key>` per inner key; every other
field goes through `fieldToString`.  The result is returned as the
association list of inserted entries (Go builds a `map[string]string`; all
inserted keys are distinct, so the list determines the map). -/
def getOptsMap (g : GOpts) : List (String × String) :=
  ("lf_tabstop", fieldToString (.VInt g.tabstop)) ::
  ("lf_hidden", fieldToString (.VBool g.hidden)) ::
  ("lf_ratios", fieldToString (.VSlice (g.ratios.map GoVal.VInt))) ::
  g.user.map (fun kv => ("lf_user_" ++ kv.1, kv.2))

/-- The keys of the exported option map. -/
def optKeys (g : GOpts) : List String := (getOptsMap g).map Prod.fst

/-- Go's `range` over a map visits every key exactly once in an
unspecified (runtime-randomized) order: an admissible iteration order for
`exportOpts` is any permutation of the map's keys. -/
def validOrder (g : GOpts) (order : List String) : Prop :=
  order.Perm (optKeys g)

instance (g : GOpts) (order : List String) : Decidable (validOrder g order) :=
  inferInstanceAs (Decidable (order.Perm (optKeys g)))

/-- Embedding of `exportOpts` (`main.go` lines 156-160) run under a given
map-iteration order: the sequence of `os.Setenv(key, value)` calls it
makes. -/
def exportSeq (g : GOpts) (order : List String) : List (String × String) :=
  order.map (fun k => (k, (List.lookup k (getOptsMap g)).getD ""))

/-- The value of a digit string read in base 10. -/
def digitsVal (ds : List Char) : Int :=
  ds.foldl (fun a c => a * 10 + (c.toNat - '0'.toNat)) 0

/-- The digit part of `strconv.Atoi`: a nonempty all-digit string is read
into an integer with the given sign; a value outside the signed 64-bit
range yields the saturated bound and a false ok flag, as Go's `ParseInt`
does on `ErrRange`. -/
def atoiCore (ds : List Char) (sign : Int) : Int × Bool :=
  if ds = [] ∨ ¬ ds.all (fun c => '0' ≤ c ∧ c ≤ '9') then (0, false)
  else if sign * digitsVal ds > (2 ^ 63 - 1 : Int) then (2 ^ 63 - 1, false)
  else if sign * digitsVal ds < (-(2 ^ 63) : Int) then (-(2 ^ 63), false)
  else (sign * digitsVal ds, true)

/-- Go `strconv.Atoi` (= `ParseInt(s, 10, 0)` with 64-bit `int`): an
optional single sign followed by digits; returns the parsed value with an
ok flag, `(0, false)` on malformed input. -/
def goAtoi (s : String) : Int × Bool :=
  match s.data with
  | '+' :: ds => atoiCore ds 1
  | '-' :: ds => atoiCore ds (-1)
  | ds => atoiCore ds 1

/-- Wrap an integer into signed 64-bit two's-complement range, as Go's
defined signed-overflow semantics do for `int` on 64-bit platforms. -/
def wrap64 (x : Int) : Int := (x + 2 ^ 63) % 2 ^ 64 - 2 ^ 63

/-- The `LF_LEVEL` computation: `init` (`main.go` lines 57-67) replaces an
unset (empty) inherited `LF_LEVEL` with `"0"`; `exportEnvVars` (lines
69-91) runs `strconv.Atoi` on it (a parse failure is only logged, leaving
the Go zero value `0`), increments with Go `int` arithmetic, and exports
the result. -/
def exportLevel (envLevel : String) : Int :=
  let lv := if envLevel = "" then "0" else envLevel
  wrap64 ((goAtoi lv).1 + 1)

/-- Observable side effects of `checkServer` in the order they happen. -/
inductive Action where
  | removeSock
  | startSrv
deriving DecidableEq

/-- Embedding of `checkServer` (`main.go` lines 169-182).  `statNotExist`
is the value of `os.IsNotExist(err)` for `os.Stat(gSocketPath)` (true
exactly when the socket file is absent); `dialOk` is whether
`net.Dial(gSocketProt, gSocketPath)` succeeds.  The result lists the
effects performed, in order. -/
def checkServer (prot : String) (statNotExist dialOk : Bool) : List Action :=
  if prot = "unix" then
    if statNotExist then [.startSrv]
    else if ¬ dialOk then [.removeSock, .startSrv]
    else []
  else
    if ¬ dialOk then [.startSrv] else []

/-- The invocation-dependent inputs of `main` (`main.go` lines 215-366)
up to the point where the client calls `run()`: parsed flag values, the
number of positional arguments with the first one, whether `os.Getwd`
succeeds, and whether the `-remote` dispatch succeeds. -/
structure Invocation where
  showDoc : Bool
  showVersion : Bool
  remoteCmd : String
  serverMode : Bool
  singleMode : Bool
  nargs : Nat
  arg0 : String
  getwdOk : Bool
  remoteOk : Bool

/-- What the `main` dispatch does for a given invocation. -/
inductive MainOutcome where
  | printsDoc
  | printsVersion
  | serves
  | exitCode (n : Nat)
  | runs (select : Option String)
deriving DecidableEq

/-- Embedding of the `switch` in `main` (`main.go` lines 326-366): `-doc`
prints the documentation, `-version` the version, a nonempty `-remote`
dispatches (a failed dispatch hits `log.Fatalf`, which exits with status
1), `-server` serves; otherwise the client path checks the positional
arguments — more than one exits with status 2, zero with an unreadable
working directory exits with status 2, else `run()` is reached (with the
single argument, when given, as the initial selection). -/
def mainStep (inv : Invocation) : MainOutcome :=
  if inv.showDoc then .printsDoc
  else if inv.showVersion then .printsVersion
  else if inv.remoteCmd ≠ "" then
    if inv.remoteOk then .exitCode 0 else .exitCode 1
  else if inv.serverMode then .serves
  else
    match inv.nargs with
    | 0 => if inv.getwdOk then .runs none else .exitCode 2
    | 1 => .runs (some inv.arg0)
    | _ + 2 => .exitCode 2

/-- Result of `os.Stat` as used by the autocd exit path: `none` when the
call errs, otherwise whether the named entry is a directory. -/
structure StatInfo where
  isDir : Bool
deriving DecidableEq

/-- Model of Go `path/filepath.Dir` for slash-separated paths: everything
up to the final `/` with trailing slashes stripped, `"."` when there is no
slash, `"/"` when only slashes remain (the `.`/`..` segment normalization
of `filepath.Clean` is not reached by the claims). -/
def goDir (p : String) : String :=
  if p.data.contains '/' then
    let pref := (p.data.reverse.dropWhile (fun c => c ≠ '/')).reverse
    let stripped := (pref.reverse.dropWhile (fun c => c = '/')).reverse
    if stripped = [] then "/" else String.mk stripped
  else "."

/-- The target-path fixup of the autocd exit path (`run()` as given in
`AUTOCD_INTEGRATION_PLAN.md`): `if info, err := os.Stat(targetPath);
err == nil && !info.IsDir() { targetPath = filepath.Dir(targetPath) }`. -/
def resolveTarget (stat : Option StatInfo) (p : String) : String :=
  match stat with
  | some info => if info.isDir then p else goDir p
  | none => p

/-- How the exit handoff ends: either the process image was replaced with
a shell at `dir`, or the process exited with the given status. -/
inductive HandoffOutcome where
  | replaced (dir : String)
  | exited (code : Nat)
deriving DecidableEq

/-- Modelled from the spec: `autocd.ExitWithDirectoryOrFallback` (the
autocd-go library is not under `src/`).  Per the integration plan, on
success the process is replaced with a transition shell at the target
directory and control never returns; on failure, for any reason, the
fallback runs — it never crashes.  `failure` carries the failure cause
when replacement fails. -/
def exitWithDirectoryOrFallback (failure : Option String) (dir : String)
    (fallback : HandoffOutcome) : HandoffOutcome :=
  match failure with
  | none => .replaced dir
  | some _ => fallback

/-- The autocd exit sequence of `run()` as quoted in
`AUTOCD_INTEGRATION_PLAN.md` lines 74-88: fix up the target path, then
`ExitWithDirectoryOrFallback` with a fallback of `os.Exit(0)`. -/
def runExitAutocd (stat : Option StatInfo) (p : String)
    (failure : Option String) : HandoffOutcome :=
  exitWithDirectoryOrFallback failure (resolveTarget stat p) (.exited 0)

/-- Go `strconv.ParseBool` (the read-back direction for boolean fields). -/
def goParseBool (s : String) : Option Bool :=
  if s = "1" ∨ s = "t" ∨ s = "T" ∨ s = "true" ∨ s = "TRUE" ∨ s = "True" then some true
  else if s = "0" ∨ s = "f" ∨ s = "F" ∨ s = "false" ∨ s = "FALSE" ∨ s = "False" then some false
  else none

/-- The tail part of the `fieldToString` slice join: each later element is
appended as `':' :: element`. -/
def joinTail : List (List Char) → List Char
  | [] => []
  | x :: xs => ':' :: (x ++ joinTail xs)

/-- The spec scenario's configuration: tabstop 8, hidden false, ratios
[1, 2, 3], all maps empty. -/
def scenarioConfig : GOpts := ⟨8, false, [1, 2, 3], [], [], [], [], []⟩

/-- A configuration with nonempty key-binding, command and user maps. -/
def c10Config : GOpts :=
  ⟨4, true, [2, 3], [("k", "down")], [], [], [("open", "o")], [("opt1", "v1")]⟩

/-- An invocation with the `-doc` flag and two positional arguments. -/
def docInvocation : Invocation := ⟨true, false, "", false, false, 2, "a", true, true⟩

theorem string_mk_data (s : String) : String.mk s.data = s := by
  cases s; rfl

theorem joinColon_cons (x : List Char) (xs : List (List Char)) :
    joinColon (x :: xs) = x ++ joinTail xs := by
  induction xs generalizing x with
  | nil => simp [joinColon, joinTail]
  | cons y ys ih => simp [joinColon, joinTail, ih y]

theorem sliceLoop_data (xs : List String) (acc : String) :
    (sliceLoop (xs.map GoVal.VStr) acc).data = acc.data ++ joinTail (xs.map String.data) := by
  induction xs generalizing acc with
  | nil => simp [sliceLoop, joinTail]
  | cons y ys ih =>
    simp only [List.map_cons, sliceLoop, ih, joinTail, fieldToString]
    simp [String.data_append]

theorem sliceToString_map_VStr (l : List String) :
    (sliceToString (l.map GoVal.VStr)).data = joinColon (l.map String.data) := by
  cases l with
  | nil => simp [sliceToString, joinColon]
  | cons x xs =>
    simp only [List.map_cons, sliceToString, sliceLoop_data, fieldToString, joinColon_cons]

theorem splitColon_ne_nil (l : List Char) : splitColon l ≠ [] := by
  induction l with
  | nil => simp [splitColon]
  | cons c cs ih =>
    simp only [splitColon]
    match h : splitColon cs with
    | [] => exact absurd h ih
    | g :: gs =>
      by_cases hc : c = ':' <;> simp [hc]

theorem splitColon_no_colon (l : List Char) (h : ':' ∉ l) : splitColon l = [l] := by
  induction l with
  | nil => rfl
  | cons c cs ih =>
    have hc : c ≠ ':' := fun e => h (e ▸ List.mem_cons_self c cs)
    have hcs : ':' ∉ cs := fun m => h (List.mem_cons_of_mem c m)
    simp [splitColon, ih hcs, hc]

theorem splitColon_append (x : List Char) (r : List Char) (h : ':' ∉ x) :
    splitColon (x ++ ':' :: r) = x :: splitColon r := by
  induction x with
  | nil =>
    simp only [List.nil_append, splitColon]
    match hr : splitColon r with
    | [] => exact absurd hr (splitColon_ne_nil r)
    | g :: gs => simp
  | cons c cs ih =>
    have hc : c ≠ ':' := fun e => h (e ▸ List.mem_cons_self c cs)
    have hcs : ':' ∉ cs := fun m => h (List.mem_cons_of_mem c m)
    simp only [List.cons_append, splitColon, List.append_eq]
    rw [ih hcs]
    simp [hc]

theorem splitColon_joinColon (L : List (List Char)) (hne : L ≠ [])
    (h : ∀ x ∈ L, ':' ∉ x) : splitColon (joinColon L) = L := by
  induction L with
  | nil => exact absurd rfl hne
  | cons x xs ih =>
    cases xs with
    | nil =>
      simp only [joinColon]
      exact splitColon_no_colon x (h x (List.mem_cons_self x []))
    | cons y ys =>
      have hx : ':' ∉ x := h x (List.mem_cons_self x _)
      have hrest : ∀ z ∈ y :: ys, ':' ∉ z := fun z m => h z (List.mem_cons_of_mem x m)
      have h2 : joinTail (y :: ys) = ':' :: (y ++ joinTail ys) := rfl
      rw [joinColon_cons, h2, splitColon_append x _ hx, ← joinColon_cons,
        ih (by simp) hrest]

/-- Claim C1 as stated is false on the code: `fieldToString` joins the
slice `["a:b", "c"]` — whose first element contains the delimiter — into
`"a:b:c"` without rejecting or escaping it, and that string re-splits into
`["a", "b", "c"]`, not the original elements. -/
theorem c1_delimiter_passed_through :
    fieldToString (.VSlice [.VStr "a:b", .VStr "c"]) = "a:b:c" ∧
    splitColonS "a:b:c" = ["a", "b", "c"] ∧
    ["a", "b", "c"] ≠ ["a:b", "c"] := by decide

/-- Claim C1 (amended): `fieldToString` encodes a list as its elements
joined by `':'` with no escaping and no rejection — a delimiter-containing
element is passed through verbatim — so the exported string re-splits into
the original elements exactly on the inputs where no element contains the
delimiter (and the list is nonempty). -/
theorem c1_roundtrip_without_delimiter (l : List String) (hne : l ≠ [])
    (hcolon : ∀ s ∈ l, ':' ∉ s.data) :
    splitColonS (fieldToString (.VSlice (l.map .VStr))) = l := by
  have hfield : fieldToString (.VSlice (l.map .VStr)) = sliceToString (l.map .VStr) := rfl
  unfold splitColonS
  rw [hfield, sliceToString_map_VStr]
  rw [splitColon_joinColon (l.map String.data) (by simpa using hne)
    (by intro x hx; obtain ⟨s, hs, rfl⟩ := List.mem_map.mp hx; exact hcolon s hs)]
  rw [List.map_map]
  have h1 : ∀ s : String, (String.mk ∘ String.data) s = s := fun s => string_mk_data s
  calc l.map (String.mk ∘ String.data) = l.map id := List.map_congr_left (fun s _ => h1 s)
    _ = l := List.map_id l

theorem c1_roundtrip_without_delimiter_witness :
    (["ab", "c"] : List String) ≠ [] ∧
    splitColonS (fieldToString (.VSlice (["ab", "c"].map .VStr))) = ["ab", "c"] :=
  ⟨by decide, c1_roundtrip_without_delimiter ["ab", "c"] (by decide) (by decide)⟩

/-- Claim C3: the scenario configuration (tabstop 8, hidden false, ratios
[1, 2, 3]) exports exactly the entries `lf_tabstop=8`, `lf_hidden=false`,
`lf_ratios=1:2:3`, and reading those strings back by type (`strconv.Atoi`,
`strconv.ParseBool`, split on `':'` plus `strconv.Atoi` per element)
reconstructs the original structured values. -/
theorem c3_scenario_export :
    getOptsMap scenarioConfig =
      [("lf_tabstop", "8"), ("lf_hidden", "false"), ("lf_ratios", "1:2:3")] ∧
    goAtoi "8" = (8, true) ∧
    goParseBool "false" = some false ∧
    (splitColonS "1:2:3").map (fun s => (goAtoi s).1) = [1, 2, 3] := by decide

theorem lfUser_data (u : String) :
    ("lf_user_" ++ u).data = 'l' :: 'f' :: '_' :: 'u' :: 's' :: 'e' :: 'r' :: '_' :: u.data := by
  rw [String.data_append]; rfl

theorem optKeys_start_with_lf (g : GOpts) :
    ∀ k ∈ optKeys g, k.data.take 3 = ['l', 'f', '_'] := by
  intro k hk
  simp only [optKeys, getOptsMap, List.map_cons, List.map_map, List.mem_cons] at hk
  rcases hk with rfl | rfl | rfl | hk
  · decide
  · decide
  · decide
  · obtain ⟨kv, _, rfl⟩ := List.mem_map.mp hk
    rw [Function.comp_apply, lfUser_data]; rfl

/-- Claim C2 as stated is false on the code: `exportOpts` iterates the Go
map built by `getOptsMap` with `range`, whose visit order is unspecified
and runtime-randomized, so two runs with different admissible iteration
orders of the very same configuration emit different sequences of
`(name, value)` entries. -/
theorem c2_export_order_not_deterministic :
    validOrder scenarioConfig ["lf_hidden", "lf_tabstop", "lf_ratios"] ∧
    validOrder scenarioConfig ["lf_tabstop", "lf_hidden", "lf_ratios"] ∧
    exportSeq scenarioConfig ["lf_hidden", "lf_tabstop", "lf_ratios"] ≠
      exportSeq scenarioConfig ["lf_tabstop", "lf_hidden", "lf_ratios"] := by decide

/-- Claim C2 (amended): the export walks every configuration field —
producing one entry per scalar/boolean/list field plus one per user key,
every name under the stable prefix `lf_` — and the emitted entries are a
deterministic function of the configuration up to order: under any two
admissible map-iteration orders the sequences are permutations of each
other, though not necessarily equal. -/
theorem c2_export_entries_deterministic_set (g : GOpts) (o1 o2 : List String)
    (h1 : validOrder g o1) (h2 : validOrder g o2) :
    (exportSeq g o1).Perm (exportSeq g o2) ∧
    (exportSeq g o1).length = 3 + g.user.length ∧
    ∀ e ∈ exportSeq g o1, e.1.data.take 3 = ['l', 'f', '_'] := by
  refine ⟨List.Perm.map _ (h1.trans h2.symm), ?_, ?_⟩
  · have hlen : o1.length = (optKeys g).length := h1.length_eq
    simp only [exportSeq, List.length_map, hlen, optKeys, getOptsMap, List.length_cons,
      List.length_map]
    omega
  · intro e he
    obtain ⟨k, hk, rfl⟩ := List.mem_map.mp he
    exact optKeys_start_with_lf g k (h1.mem_iff.mp hk)

theorem c2_export_entries_deterministic_set_witness :
    validOrder scenarioConfig ["lf_ratios", "lf_tabstop", "lf_hidden"] ∧
    (exportSeq scenarioConfig ["lf_ratios", "lf_tabstop", "lf_hidden"]).Perm
      (exportSeq scenarioConfig ["lf_ratios", "lf_tabstop", "lf_hidden"]) ∧
    (exportSeq scenarioConfig ["lf_ratios", "lf_tabstop", "lf_hidden"]).length =
      3 + scenarioConfig.user.length ∧
    ∀ e ∈ exportSeq scenarioConfig ["lf_ratios", "lf_tabstop", "lf_hidden"],
      e.1.data.take 3 = ['l', 'f', '_'] :=
  ⟨by decide,
    c2_export_entries_deterministic_set scenarioConfig _ _ (by decide) (by decide)⟩

/-- Claim C4: `checkServer` deletes the socket artifact exactly in the
branch where the protocol is unix-domain, the socket file exists and the
connect to it fails (the stale case), and in that branch it removes the
file first and then relaunches the daemon; no other branch — absent file,
successful connect, or a TCP endpoint — removes anything. -/
theorem c4_remove_only_after_failed_connect (prot : String)
    (statNotExist dialOk : Bool) :
    (Action.removeSock ∈ checkServer prot statNotExist dialOk ↔
      (prot = "unix" ∧ statNotExist = false ∧ dialOk = false)) ∧
    checkServer "unix" false false = [Action.removeSock, Action.startSrv] := by
  constructor
  · by_cases hp : prot = "unix" <;>
      cases statNotExist <;> cases dialOk <;> simp [checkServer, hp]
  · decide

/-- Claim C5: in the autocd exit path, when `os.Stat` reports the target
path as a regular file (no error, not a directory), the handoff target is
replaced by the containing directory (`filepath.Dir`) before process
replacement is attempted. -/
theorem c5_file_resolves_to_parent_dir (stat : Option StatInfo) (p : String)
    (h : stat = some ⟨false⟩) : resolveTarget stat p = goDir p := by
  subst h; rfl

theorem c5_file_resolves_to_parent_dir_witness :
    resolveTarget (some ⟨false⟩) "/home/user/notes.txt" = goDir "/home/user/notes.txt" ∧
    goDir "/home/user/notes.txt" = "/home/user" :=
  ⟨c5_file_resolves_to_parent_dir _ _ rfl, by decide⟩

/-- Claim C6: whenever the process-replacement mechanism of the exit
handoff fails — for any failure cause, any stat outcome and any target
path — the fallback runs and the process terminates with status 0; no
failure is left unhandled. -/
theorem c6_replacement_failure_exits_zero (stat : Option StatInfo)
    (p : String) (cause : String) :
    runExitAutocd stat p (some cause) = .exited 0 := rfl

/-- Claim C7 as stated is false on the code: with the `-doc` flag and two
positional arguments the invocation has more than one positional path
argument, yet `main` takes the documentation branch and never exits with
status 2. -/
theorem c7_doc_mode_ignores_extra_args :
    docInvocation.nargs > 1 ∧ mainStep docInvocation ≠ .exitCode 2 := by decide

/-- Claim C7 (amended): the program exits with status 2 exactly when, in
the default client mode (no `-doc`, `-version`, `-remote` or `-server`),
more than one positional path argument is given, or none is given and the
working directory cannot be read; under those four flags the positional
arguments are never inspected. -/
theorem c7_exit2_iff_invalid_client_invocation (inv : Invocation) :
    mainStep inv = .exitCode 2 ↔
      (inv.showDoc = false ∧ inv.showVersion = false ∧ inv.remoteCmd = "" ∧
       inv.serverMode = false ∧
       (inv.nargs > 1 ∨ (inv.nargs = 0 ∧ inv.getwdOk = false))) := by
  rcases inv with ⟨d, v, r, sm, sg, n, a, w, ro⟩
  simp only [mainStep]
  by_cases hr : r = "" <;>
    cases d <;> cases v <;> cases sm <;> cases w <;> cases ro <;>
      simp [hr] <;>
      rcases n with _ | _ | n <;> simp

theorem atoiCore_ok_range (ds : List Char) (sign n : Int)
    (h : atoiCore ds sign = (n, true)) : -(2 ^ 63) ≤ n ∧ n ≤ 2 ^ 63 - 1 := by
  unfold atoiCore at h
  split at h
  · simp at h
  · split at h
    · simp at h
    · split at h
      · simp at h
      · rename_i h1 h2
        injection h with hv _
        subst hv
        omega

theorem goAtoi_ok_range (s : String) (n : Int) (h : goAtoi s = (n, true)) :
    -(2 ^ 63) ≤ n ∧ n ≤ 2 ^ 63 - 1 := by
  unfold goAtoi at h
  split at h <;> exact atoiCore_ok_range _ _ _ h

theorem wrap64_eq_self (x : Int) (h1 : -(2 ^ 63) ≤ x) (h2 : x ≤ 2 ^ 63 - 1) :
    wrap64 x = x := by
  unfold wrap64
  omega

/-- Claim C8 as stated is false on the code: the inherited value
`9223372036854775807` parses as the decimal integer 2^63 − 1, but the Go
`int` increment wraps, so export sets `LF_LEVEL` to −2^63, not to n + 1. -/
theorem c8_level_overflow_at_maxint :
    goAtoi "9223372036854775807" = (9223372036854775807, true) ∧
    exportLevel "9223372036854775807" = -9223372036854775808 ∧
    (-9223372036854775808 : Int) ≠ 9223372036854775807 + 1 := by decide

/-- Claim C8 (amended): for every inherited `LF_LEVEL` value that
`strconv.Atoi` parses as a decimal integer n other than the maximal 64-bit
value 2^63 − 1 (where the increment wraps), export sets `LF_LEVEL` to
n + 1; an unset inherited value is treated as 0, so a top-level session
exports `LF_LEVEL=1`. -/
theorem c8_level_incremented :
    (∀ (s : String) (n : Int), goAtoi s = (n, true) → n ≠ 2 ^ 63 - 1 →
      exportLevel s = n + 1) ∧ exportLevel "" = 1 := by
  constructor
  · intro s n h hn
    by_cases hs : s = ""
    · subst hs
      have h2 : (false : Bool) = true := congrArg Prod.snd h
      exact absurd h2 (by decide)
    · obtain ⟨hlo, hhi⟩ := goAtoi_ok_range s n h
      simp only [exportLevel, hs, if_false, h]
      exact wrap64_eq_self _ (by omega) (by omega)
  · decide

theorem c8_level_incremented_witness :
    exportLevel "41" = 42 ∧ exportLevel "" = 1 :=
  ⟨c8_level_incremented.1 "41" 41 (by decide) (by decide), c8_level_incremented.2⟩

/-- Claim C9: for a unix-domain endpoint whose socket file is absent,
`checkServer` only launches the daemon — its effect list is exactly the
process spawn, with no removal (nor any other filesystem mutation) of the
socket path, whatever a connect would have returned. -/
theorem c9_absent_socket_no_removal (dialOk : Bool) :
    checkServer "unix" true dialOk = [Action.startSrv] ∧
    Action.removeSock ∉ checkServer "unix" true dialOk := by
  cases dialOk <;> exact ⟨by decide, by decide⟩

theorem lfUser_ne (k t : String) (h3 : t.data.get? 3 ≠ some 'u') :
    "lf_user_" ++ k ≠ t := by
  intro h
  apply h3
  rw [← h, lfUser_data]
  rfl

theorem lfUser_inj (a b : String) (h : "lf_user_" ++ a = "lf_user_" ++ b) : a = b := by
  have h2 := congrArg String.data h
  rw [String.data_append, String.data_append] at h2
  exact String.ext (List.append_cancel_left h2)

theorem lookup_usermap_none (u : List (String × String)) (t : String)
    (h : ∀ k, "lf_user_" ++ k ≠ t) :
    List.lookup t (u.map fun kv => ("lf_user_" ++ kv.1, kv.2)) = none := by
  induction u with
  | nil => rfl
  | cons kv us ih =>
    have hb : (t == "lf_user_" ++ kv.1) = false := by
      rw [beq_eq_false_iff_ne]
      exact fun e => h kv.1 e.symm
    simp only [List.map_cons, List.lookup, hb]
    exact ih

theorem lookup_usermap_mem (u : List (String × String)) (k v : String)
    (h : List.lookup k u = some v) :
    List.lookup ("lf_user_" ++ k) (u.map fun kv => ("lf_user_" ++ kv.1, kv.2)) = some v := by
  induction u with
  | nil => simp [List.lookup] at h
  | cons kv us ih =>
    rcases eq_or_ne k kv.1 with he | he
    · have hb : (k == kv.1) = true := by rw [beq_iff_eq]; exact he
      have hb2 : (("lf_user_" ++ k) == ("lf_user_" ++ kv.1)) = true := by
        rw [beq_iff_eq, he]
      simp only [List.lookup, hb] at h
      simp only [List.map_cons, List.lookup, hb2]
      exact h
    · have hb : (k == kv.1) = false := by rw [beq_eq_false_iff_ne]; exact he
      have hb2 : (("lf_user_" ++ k) == ("lf_user_" ++ kv.1)) = false := by
        rw [beq_eq_false_iff_ne]
        exact fun e => he (lfUser_inj _ _ e)
      simp only [List.lookup, hb] at h
      simp only [List.map_cons, List.lookup, hb2]
      exact ih h

/-- Claim C10: for every configuration value, the exported option map has
no entry named `lf_nkeys`, `lf_vkeys`, `lf_cmdkeys` or `lf_cmds` — the
four map-valued fields are skipped — while every key of the user-defined
settings map is exported as its own entry named `lf_user_<key>`. -/
theorem c10_map_fields_excluded (g : GOpts) :
    List.lookup "lf_nkeys" (getOptsMap g) = none ∧
    List.lookup "lf_vkeys" (getOptsMap g) = none ∧
    List.lookup "lf_cmdkeys" (getOptsMap g) = none ∧
    List.lookup "lf_cmds" (getOptsMap g) = none ∧
    ∀ k v, List.lookup k g.user = some v →
      List.lookup ("lf_user_" ++ k) (getOptsMap g) = some v := by
  refine ⟨?_, ?_, ?_, ?_, ?_⟩
  · simp only [getOptsMap, List.lookup,
      show (("lf_nkeys" : String) == "lf_tabstop") = false by decide,
      show (("lf_nkeys" : String) == "lf_hidden") = false by decide,
      show (("lf_nkeys" : String) == "lf_ratios") = false by decide]
    exact lookup_usermap_none _ _ (fun k => lfUser_ne k _ (by decide))
  · simp only [getOptsMap, List.lookup,
      show (("lf_vkeys" : String) == "lf_tabstop") = false by decide,
      show (("lf_vkeys" : String) == "lf_hidden") = false by decide,
      show (("lf_vkeys" : String) == "lf_ratios") = false by decide]
    exact lookup_usermap_none _ _ (fun k => lfUser_ne k _ (by decide))
  · simp only [getOptsMap, List.lookup,
      show (("lf_cmdkeys" : String) == "lf_tabstop") = false by decide,
      show (("lf_cmdkeys" : String) == "lf_hidden") = false by decide,
      show (("lf_cmdkeys" : String) == "lf_ratios") = false by decide]
    exact lookup_usermap_none _ _ (fun k => lfUser_ne k _ (by decide))
  · simp only [getOptsMap, List.lookup,
      show (("lf_cmds" : String) == "lf_tabstop") = false by decide,
      show (("lf_cmds" : String) == "lf_hidden") = false by decide,
      show (("lf_cmds" : String) == "lf_ratios") = false by decide]
    exact lookup_usermap_none _ _ (fun k => lfUser_ne k _ (by decide))
  · intro k v h
    have h1 : (("lf_user_" ++ k) == ("lf_tabstop" : String)) = false := by
      rw [beq_eq_false_iff_ne]; exact lfUser_ne k _ (by decide)
    have h2 : (("lf_user_" ++ k) == ("lf_hidden" : String)) = false := by
      rw [beq_eq_false_iff_ne]; exact lfUser_ne k _ (by decide)
    have h3 : (("lf_user_" ++ k) == ("lf_ratios" : String)) = false := by
      rw [beq_eq_false_iff_ne]; exact lfUser_ne k _ (by decide)
    simp only [getOptsMap, List.lookup, h1, h2, h3]
    exact lookup_usermap_mem _ _ _ h

theorem c10_map_fields_excluded_witness :
    List.lookup "lf_nkeys" (getOptsMap c10Config) = none ∧
    List.lookup ("lf_user_" ++ "opt1") (getOptsMap c10Config) = some "v1" :=
  ⟨(c10_map_fields_excluded c10Config).1,
    (c10_map_fields_excluded c10Config).2.2.2.2 "opt1" "v1" (by decide)⟩

end LfAutocd
